import Mathlib

/-!
Shallow embedding of the ACID-compliant e-commerce order-processing core
(`src/services/orderService.js`, its HTTP controller, and the payment stub).

The Ledger Store is modelled as an explicit record of lists of rows; a
Prisma `$transaction` is modelled as a function from the store to
`Except` of (result, new store), wrapped so that an error returns the
original store unchanged (rollback) and success returns the updated
store (commit).  Monetary amounts are integers (the schema's fixed-point
decimal, scaled to cents), identifiers and stock quantities are naturals.
-/

namespace OrderApi

/-- A row of the `users` relation (`id`, unique `email`). -/
structure User where
  id : Nat
  email : String
  deriving Repr, DecidableEq

/-- A row of the `products` relation: `name`, decimal `price`, integer `stock`. -/
structure Product where
  id : Nat
  name : String
  price : Int
  stock : Nat
  deriving Repr, DecidableEq

/-- Order lifecycle status values. -/
inductive OrderStatus where
  | pending
  | processing
  | shipped
  | delivered
  | cancelled
  deriving Repr, DecidableEq

/-- A row of the `orders` relation. -/
structure Order where
  id : Nat
  userId : Nat
  status : OrderStatus
  totalAmount : Int
  createdAt : Nat
  deriving Repr, DecidableEq

/-- A row of the `order_items` relation: quantity and price snapshot. -/
structure OrderItem where
  id : Nat
  orderId : Nat
  productId : Nat
  quantity : Nat
  price : Int
  deriving Repr, DecidableEq

/-- A row of the `payments` relation. -/
structure Payment where
  id : Nat
  orderId : Nat
  amount : Int
  status : String
  deriving Repr, DecidableEq

/-- The Ledger Store: all five relations plus id sequences. -/
structure Store where
  users : List User
  products : List Product
  orders : List Order
  orderItems : List OrderItem
  payments : List Payment
  nextOrderId : Nat
  nextItemId : Nat
  nextPaymentId : Nat
  deriving Repr, DecidableEq

/-- One requested (productId, quantity) pair of a create-order call. -/
structure ItemRequest where
  productId : Nat
  quantity : Nat
  deriving Repr, DecidableEq

/-- The data pushed onto `orderItemsData` for one item in the creation loop. -/
structure OrderItemData where
  productId : Nat
  quantity : Nat
  price : Int
  deriving Repr, DecidableEq

/-- The typed errors thrown by the service layer. -/
inductive OrderError where
  | UserNotFound
  | ProductNotFound (productId : Nat)
  | InsufficientStock (name : String) (available : Nat) (requested : Nat)
  | PaymentFailed
  | OrderNotFound
  | NotCancelable (status : OrderStatus)
  | InternalFailure
  deriving Repr, DecidableEq

/-- Decidable equality of service results, used to evaluate the witnesses. -/
instance {ε α : Type} [DecidableEq ε] [DecidableEq α] : DecidableEq (Except ε α) := fun x y =>
  match x, y with
  | .ok a, .ok b => if h : a = b then .isTrue (by rw [h]) else .isFalse (by simp [h])
  | .ok _, .error _ => .isFalse (by simp)
  | .error _, .ok _ => .isFalse (by simp)
  | .error e, .error f => if h : e = f then .isTrue (by rw [h]) else .isFalse (by simp [h])

/-- Models `tx.user.findUnique({ where: { id } })`. -/
def findUser (users : List User) (id : Nat) : Option User :=
  users.find? (fun u => u.id == id)

/-- Models `tx.product.findUnique({ where: { id } })`. -/
def findProduct (products : List Product) (id : Nat) : Option Product :=
  products.find? (fun p => p.id == id)

/-- Models `tx.order.findUnique({ where: { id } })`. -/
def findOrder (orders : List Order) (id : Nat) : Option Order :=
  orders.find? (fun o => o.id == id)

/-- Models `tx.product.update` with `stock: { decrement: qty }`. -/
def decrementStock (products : List Product) (pid qty : Nat) : List Product :=
  products.map (fun p => if p.id == pid then { p with stock := p.stock - qty } else p)

/-- Models `tx.product.update` with `stock: { increment: qty }`. -/
def incrementStock (products : List Product) (pid qty : Nat) : List Product :=
  products.map (fun p => if p.id == pid then { p with stock := p.stock + qty } else p)

/-- Steps 2–3 of `createOrder`: the per-item loop.  For each requested item,
look the product up in the current product table, fail if it is absent or
its stock is below the requested quantity, otherwise record a line-item
snapshot, add `price * quantity` to the running total, and decrement the
product's stock before moving to the next item. -/
def checkItems (items : List ItemRequest) (products : List Product)
    (acc : List OrderItemData) (total : Int) :
    Except OrderError (List Product × List OrderItemData × Int) :=
  match items with
  | [] => .ok (products, acc, total)
  | item :: rest =>
    match findProduct products item.productId with
    | none => .error (.ProductNotFound item.productId)
    | some product =>
      if product.stock < item.quantity then
        .error (.InsufficientStock product.name product.stock item.quantity)
      else
        checkItems rest (decrementStock products item.productId item.quantity)
          (acc ++ [⟨item.productId, item.quantity, product.price⟩])
          (total + product.price * item.quantity)

/-- The value `createOrder` returns: `{ orderId, status, totalAmount }`. -/
structure CreateOrderResult where
  orderId : Nat
  status : OrderStatus
  totalAmount : Int
  deriving Repr, DecidableEq

/-- The stub `processPayment` of `src/services/paymentService.js`: `const success = true`,
so the authorizer always approves. -/
def processPayment (_amount : Int) (_orderId : Nat) : Bool :=
  true

/-- The body of the `prisma.$transaction` callback of `createOrder`,
parameterized by the payment authorizer `pay` so that the behaviour on
authorizer failure is expressible: validate the user, run the per-item
check/decrement loop, create the order with its items, invoke the
authorizer with the computed total and the new order id, and create a
succeeded payment record. -/
def createOrderTx (pay : Int → Nat → Bool) (s : Store) (userId : Nat)
    (items : List ItemRequest) (now : Nat) :
    Except OrderError (CreateOrderResult × Store) :=
  match findUser s.users userId with
  | none => .error .UserNotFound
  | some _user =>
    match checkItems items s.products [] 0 with
    | .error e => .error e
    | .ok (products', itemsData, totalAmount) =>
      let orderId := s.nextOrderId
      let order : Order :=
        { id := orderId, userId := userId, status := .processing,
          totalAmount := totalAmount, createdAt := now }
      let newItems : List OrderItem :=
        (List.range itemsData.length).zipWith
          (fun i d => { id := s.nextItemId + i, orderId := orderId,
                        productId := d.productId, quantity := d.quantity,
                        price := d.price })
          itemsData
      if pay totalAmount orderId then
        let payment : Payment :=
          { id := s.nextPaymentId, orderId := orderId,
            amount := totalAmount, status := "succeeded" }
        .ok ({ orderId := orderId, status := order.status,
               totalAmount := totalAmount },
             { s with products := products',
                      orders := s.orders ++ [order],
                      orderItems := s.orderItems ++ newItems,
                      payments := s.payments ++ [payment],
                      nextOrderId := s.nextOrderId + 1,
                      nextItemId := s.nextItemId + itemsData.length,
                      nextPaymentId := s.nextPaymentId + 1 })
      else
        .error .PaymentFailed

/-- The function `createOrder` with an explicit authorizer: run the transaction body;
on success commit the new store, on any error roll everything back so the
store is exactly the pre-call store. -/
def createOrderWith (pay : Int → Nat → Bool) (s : Store) (userId : Nat)
    (items : List ItemRequest) (now : Nat) :
    Except OrderError CreateOrderResult × Store :=
  match createOrderTx pay s userId items now with
  | .error e => (.error e, s)
  | .ok (r, s') => (.ok r, s')

/-- The shipped `createOrder(userId, items)`: the authorizer is the
always-succeeding `processPayment` stub. -/
def createOrder (s : Store) (userId : Nat) (items : List ItemRequest)
    (now : Nat) : Except OrderError CreateOrderResult × Store :=
  createOrderWith processPayment s userId items now

/-- The per-item slice of the `getOrderDetails` view:
`{ productId, productName, quantity, price }` with `price` taken from the
order item (the creation-time snapshot), not from the product row. -/
structure OrderItemView where
  productId : Nat
  productName : String
  quantity : Nat
  price : Int
  deriving Repr, DecidableEq

/-- The `user` slice of the `getOrderDetails` view (`select id, email`). -/
structure UserView where
  id : Nat
  email : String
  deriving Repr, DecidableEq

/-- The full `getOrderDetails` view. -/
structure OrderView where
  orderId : Nat
  status : OrderStatus
  totalAmount : Int
  createdAt : Nat
  user : UserView
  items : List OrderItemView
  deriving Repr, DecidableEq

/-- Build one `OrderItemView` from an order item: the joined product row
supplies `id` and `name`, the order item supplies `quantity` and the
snapshotted `price`.  A dangling product foreign key (impossible under the
schema's referential integrity) surfaces as `InternalFailure`, matching a
null dereference in the source. -/
def itemView (products : List Product) (it : OrderItem) :
    Except OrderError OrderItemView :=
  match findProduct products it.productId with
  | none => .error .InternalFailure
  | some p => .ok { productId := p.id, productName := p.name,
                    quantity := it.quantity, price := it.price }

/-- Lift `itemView` over the order's item list. -/
def itemViews (products : List Product) :
    List OrderItem → Except OrderError (List OrderItemView)
  | [] => .ok []
  | it :: rest =>
    match itemView products it with
    | .error e => .error e
    | .ok v =>
      match itemViews products rest with
      | .error e => .error e
      | .ok vs => .ok (v :: vs)

/-- The read-only `getOrderDetails(orderId)` view assembly.  Fails with
`OrderNotFound` when the id does not resolve; otherwise returns status,
total, creation time, the owning user's id/email, and one view per order
item carrying the snapshotted price. -/
def getOrderDetails (s : Store) (orderId : Nat) : Except OrderError OrderView :=
  match findOrder s.orders orderId with
  | none => .error .OrderNotFound
  | some order =>
    match findUser s.users order.userId with
    | none => .error .InternalFailure
    | some user =>
      match itemViews s.products (s.orderItems.filter (fun it => it.orderId == orderId)) with
      | .error e => .error e
      | .ok vs =>
        .ok { orderId := order.id, status := order.status,
              totalAmount := order.totalAmount, createdAt := order.createdAt,
              user := { id := user.id, email := user.email }, items := vs }

/-- The value `cancelOrder` returns: `{ orderId, status }`. -/
structure CancelResult where
  orderId : Nat
  status : OrderStatus
  deriving Repr, DecidableEq

/-- The body of the `prisma.$transaction` callback of `cancelOrder`:
load the order with its items; `OrderNotFound` if absent; if already
`cancelled` return its current state with no mutation; if `shipped` or
`delivered` fail with `NotCancelable`; otherwise increment each item's
product stock by the item's quantity and set the order's status to
`cancelled`. -/
def cancelOrderTx (s : Store) (orderId : Nat) :
    Except OrderError (CancelResult × Store) :=
  match findOrder s.orders orderId with
  | none => .error .OrderNotFound
  | some order =>
    if order.status == .cancelled then
      .ok ({ orderId := order.id, status := order.status }, s)
    else if order.status == .shipped || order.status == .delivered then
      .error (.NotCancelable order.status)
    else
      let its := s.orderItems.filter (fun it => it.orderId == orderId)
      let products' :=
        its.foldl (fun ps it => incrementStock ps it.productId it.quantity) s.products
      let orders' :=
        s.orders.map (fun o => if o.id == orderId then { o with status := .cancelled } else o)
      .ok ({ orderId := orderId, status := .cancelled },
           { s with products := products', orders := orders' })

/-- The operation `cancelOrder(orderId)`: run the transaction body; commit on success,
roll back (return the untouched store) on error. -/
def cancelOrder (s : Store) (orderId : Nat) :
    Except OrderError CancelResult × Store :=
  match cancelOrderTx s orderId with
  | .error e => (.error e, s)
  | .ok (r, s') => (.ok r, s')

/-- A price update (`UPDATE products SET price = np WHERE id = pid`), used to state that
fetched item prices are creation-time snapshots, insensitive to later
price changes. -/
def setPrice (s : Store) (pid : Nat) (np : Int) : Store :=
  { s with products :=
      s.products.map (fun p => if p.id == pid then { p with price := np } else p) }

/-! ## HTTP controller layer (`src/controllers/orderController.js`) -/

/-- One raw item of a create-order request body: either field may be
absent; `none` models a missing field and `some 0` a present falsy value. -/
structure RawItem where
  productId : Option Nat
  quantity : Option Int
  deriving Repr, DecidableEq

/-- A raw create-order request body.  `items = none` covers both a missing
`items` field and a non-array value (either fails the controller's
`!items || !Array.isArray(items)` guard). -/
structure RawBody where
  userId : Option Nat
  items : Option (List RawItem)
  deriving Repr, DecidableEq

/-- JavaScript truthiness of an optional numeric field: falsy when absent
or zero. -/
def truthyNat : Option Nat → Bool
  | none => false
  | some n => !(n == 0)

/-- JavaScript truthiness of an optional integer field. -/
def truthyInt : Option Int → Bool
  | none => false
  | some q => !(q == 0)

/-- The controller's guard on one item:
`!item.productId || !item.quantity || item.quantity <= 0` rejects. -/
def validItem (it : RawItem) : Bool :=
  truthyNat it.productId && truthyInt it.quantity && (0 < it.quantity.getD 0)

/-- The controller's request-body validation:
`!userId || !items || !Array.isArray(items) || items.length === 0`,
then every item must pass `validItem`. -/
def validBody (b : RawBody) : Bool :=
  truthyNat b.userId && b.items.isSome && !(b.items.getD []).isEmpty &&
    (b.items.getD []).all validItem

/-- Map a service error to the controller's HTTP status: messages
containing `not found` or `Insufficient stock` become 400, everything else
500. -/
def errorStatus : OrderError → Nat
  | .UserNotFound => 400
  | .ProductNotFound _ => 400
  | .InsufficientStock _ _ _ => 400
  | _ => 500

/-- The `createOrder` HTTP handler: validate the body; on failure respond
400 touching neither the engine nor the store; otherwise call the engine
and map the outcome to 201 or an error status.  The third component
records whether the Order Lifecycle Engine was invoked. -/
def createOrderController (s : Store) (b : RawBody) (now : Nat) :
    Nat × Store × Bool :=
  if validBody b then
    let items := (b.items.getD []).map
      (fun it => ItemRequest.mk (it.productId.getD 0) (it.quantity.getD 0).toNat)
    match createOrder s (b.userId.getD 0) items now with
    | (.ok _, s') => (201, s', true)
    | (.error e, s') => (errorStatus e, s', true)
  else
    (400, s, false)

/-! ## Measures used to state the claims -/

/-- Total quantity of product `pid` demanded across a request list
(summing over duplicate entries for the same product). -/
def demanded (items : List ItemRequest) (pid : Nat) : Nat :=
  ((items.filter (fun it => it.productId == pid)).map (fun it => it.quantity)).sum

/-- Total quantity of product `pid` recorded across a list of order items. -/
def restored (its : List OrderItem) (pid : Nat) : Nat :=
  ((its.filter (fun it => it.productId == pid)).map (fun it => it.quantity)).sum

/-- The price of product `pid` in a product table (0 when absent). -/
def priceIn (products : List Product) (pid : Nat) : Int :=
  ((findProduct products pid).map (fun p => p.price)).getD 0

/-- The total a request list should produce against a product table:
the sum over the items of price-at-order-time times requested quantity. -/
def itemsTotal (products : List Product) (items : List ItemRequest) : Int :=
  (items.map (fun it => priceIn products it.productId * it.quantity)).sum

/-! ## Concrete stores used by the witnesses -/

/-- A small seeded store: one user, two products in stock. -/
def demoStore : Store :=
  { users := [⟨1, "alice@shop.test"⟩],
    products := [⟨10, "widget", 3, 3⟩, ⟨11, "gadget", 4, 1⟩],
    orders := [], orderItems := [], payments := [],
    nextOrderId := 100, nextItemId := 200, nextPaymentId := 300 }

/-- The store after a successful two-item order against `demoStore`. -/
def demoStore1 : Store :=
  (createOrder demoStore 1 [⟨10, 2⟩, ⟨11, 1⟩] 42).2

/-- A store holding one already-shipped order. -/
def shippedStore : Store :=
  { users := [⟨1, "bob@shop.test"⟩],
    products := [⟨10, "widget", 3, 5⟩],
    orders := [⟨7, 1, .shipped, 9, 5⟩],
    orderItems := [⟨1, 7, 10, 3, 3⟩],
    payments := [],
    nextOrderId := 8, nextItemId := 2, nextPaymentId := 1 }

/-- The specified outcome of a successful `createOrder(userId, items)` call
starting from store `s` and ending in store `s'` with response `r`:
the response carries the new order id, status `processing`, and a total
equal to the sum of price-at-order-time times quantity; a matching order
row and a succeeded payment row are persisted; one line item per supplied
item records its quantity and snapshotted price; every product's stock
drops by exactly the demanded quantity (zero for untouched products) with
id, name, and price unchanged; and the user table is untouched. -/
def CreateOk (s : Store) (u : Nat) (items : List ItemRequest)
    (r : CreateOrderResult) (s' : Store) : Prop :=
  r.orderId = s.nextOrderId ∧
  r.status = .processing ∧
  r.totalAmount = itemsTotal s.products items ∧
  (∃ order ∈ s'.orders, order.id = r.orderId ∧ order.userId = u ∧
     order.status = .processing ∧ order.totalAmount = r.totalAmount) ∧
  (∃ pmt ∈ s'.payments, pmt.orderId = r.orderId ∧ pmt.amount = r.totalAmount ∧
     pmt.status = "succeeded") ∧
  (∃ new, s'.orderItems = s.orderItems ++ new ∧ new.length = items.length ∧
     ∀ i (h1 : i < items.length) (h2 : i < new.length),
       new[i].orderId = r.orderId ∧
       new[i].productId = items[i].productId ∧
       new[i].quantity = items[i].quantity ∧
       new[i].price = priceIn s.products items[i].productId) ∧
  s'.products.length = s.products.length ∧
  (∀ i (h1 : i < s.products.length) (h2 : i < s'.products.length),
     s'.products[i].id = s.products[i].id ∧
     s'.products[i].name = s.products[i].name ∧
     s'.products[i].price = s.products[i].price ∧
     s'.products[i].stock + demanded items s.products[i].id = s.products[i].stock) ∧
  s'.users = s.users

/-- The store after cancelling the demo order created in `demoStore1`. -/
def demoStoreC : Store :=
  (cancelOrder demoStore1 100).2

/-- The specified outcome of cancelling a pending/processing order `o`:
users, order items, payments, and id sequences are untouched; the order's
status flips to `cancelled` and nothing else about the orders changes;
every product keeps its id, name, and price, and gains back exactly the
quantity recorded for it in the order's line items (zero for products the
order does not touch). -/
def CancelOk (s : Store) (o : Nat) (s' : Store) : Prop :=
  s'.users = s.users ∧
  s'.orderItems = s.orderItems ∧
  s'.payments = s.payments ∧
  s'.nextOrderId = s.nextOrderId ∧
  s'.nextItemId = s.nextItemId ∧
  s'.nextPaymentId = s.nextPaymentId ∧
  s'.orders = s.orders.map
    (fun x => if x.id == o then { x with status := .cancelled } else x) ∧
  s'.products.length = s.products.length ∧
  (∀ i (h1 : i < s.products.length) (h2 : i < s'.products.length),
     s'.products[i].id = s.products[i].id ∧
     s'.products[i].name = s.products[i].name ∧
     s'.products[i].price = s.products[i].price ∧
     s'.products[i].stock = s.products[i].stock +
       restored (s.orderItems.filter (fun it => it.orderId == o)) s.products[i].id)

/-! ## Helper lemmas -/

theorem findProduct_map_of_id (g : Product → Product) (hg : ∀ p, (g p).id = p.id)
    (ps : List Product) (x : Nat) :
    findProduct (ps.map g) x = (findProduct ps x).map g := by
  unfold findProduct
  rw [List.find?_map g ps]
  have hpred : ((fun p : Product => p.id == x) ∘ g) = fun p : Product => p.id == x := by
    funext p
    simp [Function.comp, hg p]
  rw [hpred]

theorem findOrder_map_of_id (g : Order → Order) (hg : ∀ o, (g o).id = o.id)
    (os : List Order) (x : Nat) :
    findOrder (os.map g) x = (findOrder os x).map g := by
  unfold findOrder
  rw [List.find?_map g os]
  have hpred : ((fun o : Order => o.id == x) ∘ g) = fun o : Order => o.id == x := by
    funext o
    simp [Function.comp, hg o]
  rw [hpred]

theorem decrementStock_map_fields (ps : List Product) (pid q : Nat) :
    (decrementStock ps pid q).map (fun p => (p.id, p.name, p.price)) =
      ps.map (fun p => (p.id, p.name, p.price)) := by
  unfold decrementStock
  rw [List.map_map]
  apply List.map_congr_left
  intro p _
  by_cases h : (p.id == pid) <;> simp [Function.comp, h]

theorem incrementStock_map_fields (ps : List Product) (pid q : Nat) :
    (incrementStock ps pid q).map (fun p => (p.id, p.name, p.price)) =
      ps.map (fun p => (p.id, p.name, p.price)) := by
  unfold incrementStock
  rw [List.map_map]
  apply List.map_congr_left
  intro p _
  by_cases h : (p.id == pid) <;> simp [Function.comp, h]

theorem decrementStock_length (ps : List Product) (pid q : Nat) :
    (decrementStock ps pid q).length = ps.length := by
  simp [decrementStock]

theorem incrementStock_length (ps : List Product) (pid q : Nat) :
    (incrementStock ps pid q).length = ps.length := by
  simp [incrementStock]

theorem decrementStock_getElem (ps : List Product) (pid q : Nat) (i : Nat)
    (h : i < ps.length) (h2 : i < (decrementStock ps pid q).length) :
    (decrementStock ps pid q)[i] =
      if ps[i].id == pid then { ps[i] with stock := ps[i].stock - q } else ps[i] := by
  simp [decrementStock]

theorem incrementStock_getElem (ps : List Product) (pid q : Nat) (i : Nat)
    (h : i < ps.length) (h2 : i < (incrementStock ps pid q).length) :
    (incrementStock ps pid q)[i] =
      if ps[i].id == pid then { ps[i] with stock := ps[i].stock + q } else ps[i] := by
  simp [incrementStock]

theorem priceIn_decrementStock (ps : List Product) (pid q x : Nat) :
    priceIn (decrementStock ps pid q) x = priceIn ps x := by
  unfold priceIn decrementStock
  rw [findProduct_map_of_id]
  · cases hf : findProduct ps x with
    | none => simp
    | some p =>
      have hp : ((if p.id = pid then { p with stock := p.stock - q } else p) : Product).price
          = p.price := by
        split <;> rfl
      simp [hp]
  · intro p
    by_cases h : (p.id == pid) <;> simp [h]

theorem demanded_cons (it : ItemRequest) (rest : List ItemRequest) (pid : Nat) :
    demanded (it :: rest) pid =
      (if it.productId == pid then it.quantity else 0) + demanded rest pid := by
  by_cases h : (it.productId == pid) <;> simp [demanded, List.filter_cons, h]

theorem restored_cons (it : OrderItem) (rest : List OrderItem) (pid : Nat) :
    restored (it :: rest) pid =
      (if it.productId == pid then it.quantity else 0) + restored rest pid := by
  by_cases h : (it.productId == pid) <;> simp [restored, List.filter_cons, h]

theorem decrementStock_map_id (ps : List Product) (pid q : Nat) :
    (decrementStock ps pid q).map (fun p => p.id) = ps.map (fun p => p.id) := by
  unfold decrementStock
  rw [List.map_map]
  apply List.map_congr_left
  intro p _
  by_cases h : (p.id == pid) <;> simp [Function.comp, h]

theorem itemsTotal_decrementStock (items : List ItemRequest) (ps : List Product)
    (pid q : Nat) :
    itemsTotal (decrementStock ps pid q) items = itemsTotal ps items := by
  induction items with
  | nil => rfl
  | cons it rest ih =>
    simp [itemsTotal, priceIn_decrementStock, ih]

theorem checkItems_ok_spec (items : List ItemRequest) :
    ∀ (ps : List Product) (acc : List OrderItemData) (total : Int)
      (ps' : List Product) (acc' : List OrderItemData) (total' : Int),
      (ps.map (fun p => p.id)).Nodup →
      checkItems items ps acc total = .ok (ps', acc', total') →
      acc' = acc ++ items.map
          (fun it => ⟨it.productId, it.quantity, priceIn ps it.productId⟩) ∧
      total' = total + itemsTotal ps items ∧
      ps'.map (fun p => (p.id, p.name, p.price)) =
        ps.map (fun p => (p.id, p.name, p.price)) ∧
      ∀ i (h1 : i < ps.length) (h2 : i < ps'.length),
        ps'[i].stock + demanded items ps[i].id = ps[i].stock := by
  induction items with
  | nil =>
    intro ps acc total ps' acc' total' _ h
    simp only [checkItems, Except.ok.injEq, Prod.mk.injEq] at h
    obtain ⟨hps, hacc, htot⟩ := h
    subst hps hacc htot
    refine ⟨by simp, by simp [itemsTotal], rfl, ?_⟩
    intro i h1 h2
    simp [demanded]
  | cons it rest ih =>
    intro ps acc total ps' acc' total' hnd h
    simp only [checkItems] at h
    cases hf : findProduct ps it.productId with
    | none =>
      rw [hf] at h
      dsimp only at h
      exact absurd h (by simp)
    | some product =>
      rw [hf] at h
      dsimp only at h
      by_cases hs : product.stock < it.quantity
      · rw [if_pos hs] at h
        exact absurd h (by simp)
      · rw [if_neg hs] at h
        have hnd1 : ((decrementStock ps it.productId it.quantity).map
            (fun p => p.id)).Nodup := by
          rw [decrementStock_map_id]; exact hnd
        obtain ⟨hacc, htot, hfields, hstock⟩ := ih _ _ _ _ _ _ hnd1 h
        have hpr : priceIn ps it.productId = product.price := by
          simp [priceIn, hf]
        have hsnap : (fun j : ItemRequest =>
            (⟨j.productId, j.quantity,
              priceIn (decrementStock ps it.productId it.quantity) j.productId⟩ :
              OrderItemData)) =
            fun j : ItemRequest =>
              ⟨j.productId, j.quantity, priceIn ps j.productId⟩ := by
          funext j
          rw [priceIn_decrementStock]
        refine ⟨?_, ?_, ?_, ?_⟩
        · rw [hacc, hsnap]
          simp [List.append_assoc, hpr]
        · rw [htot, itemsTotal_decrementStock]
          simp only [itemsTotal, List.map_cons, List.sum_cons, hpr]
          ring
        · rw [hfields, decrementStock_map_fields]
        · intro i h1 h2
          have hlen : i < (decrementStock ps it.productId it.quantity).length := by
            rw [decrementStock_length]; exact h1
          have hst := hstock i hlen h2
          have hget := decrementStock_getElem ps it.productId it.quantity i h1 hlen
          rw [demanded_cons]
          by_cases hc : ps[i].id = it.productId
          · have hpeq : ps[i] = product := by
              have hmem : ps[i] ∈ ps := List.getElem_mem h1
              have hpm : product ∈ ps := List.mem_of_find?_eq_some hf
              have hpid : product.id = it.productId := by
                have := List.find?_some hf
                simpa using this
              exact List.inj_on_of_nodup_map hnd hmem hpm (by rw [hc, hpid])
            have hcond : (ps[i].id == it.productId) = true := by simpa using hc
            rw [hcond] at hget
            simp only [if_true] at hget
            have hq : it.quantity ≤ ps[i].stock := by
              rw [hpeq]; omega
            rw [hget] at hst
            simp only at hst
            have hcond2 : (it.productId == ps[i].id) = true := by
              simp [hc]
            rw [hcond2, if_pos rfl]
            · omega
          · have hcond : (ps[i].id == it.productId) = false := by simpa using hc
            rw [hcond] at hget
            simp only [Bool.false_eq_true, if_false] at hget
            rw [hget] at hst
            have hcond2 : (it.productId == ps[i].id) = false := by
              simp
              omega
            rw [hcond2]
            simp only [Bool.false_eq_true, if_false]
            omega

theorem findProduct_decrementStock (ps : List Product) (a b x : Nat) :
    findProduct (decrementStock ps a b) x =
      (findProduct ps x).map
        (fun p => if p.id == a then { p with stock := p.stock - b } else p) := by
  unfold decrementStock
  apply findProduct_map_of_id
  intro p
  split <;> rfl

theorem checkItems_error_spec (items : List ItemRequest) :
    ∀ (ps : List Product) (acc : List OrderItemData) (total : Int) (e : OrderError),
      checkItems items ps acc total = .error e →
      (∃ pid, e = .ProductNotFound pid ∧ findProduct ps pid = none) ∨
      (∃ nm av rq, e = .InsufficientStock nm av rq ∧ av < rq) := by
  induction items with
  | nil =>
    intro ps acc total e h
    exact absurd h (by simp [checkItems])
  | cons it rest ih =>
    intro ps acc total e h
    simp only [checkItems] at h
    cases hf : findProduct ps it.productId with
    | none =>
      rw [hf] at h
      dsimp only at h
      injection h with he
      exact Or.inl ⟨it.productId, he.symm, hf⟩
    | some product =>
      rw [hf] at h
      dsimp only at h
      by_cases hs : product.stock < it.quantity
      · rw [if_pos hs] at h
        injection h with he
        exact Or.inr ⟨product.name, product.stock, it.quantity, he.symm, hs⟩
      · rw [if_neg hs] at h
        rcases ih _ _ _ _ h with ⟨pid, he, hnone⟩ | hins
        · refine Or.inl ⟨pid, he, ?_⟩
          rw [findProduct_decrementStock] at hnone
          cases hne : findProduct ps pid with
          | none => rfl
          | some p => rw [hne] at hnone; simp at hnone
        · exact Or.inr hins

theorem checkItems_append (l₁ l₂ : List ItemRequest) :
    ∀ (ps : List Product) (acc : List OrderItemData) (total : Int),
      checkItems (l₁ ++ l₂) ps acc total =
        match checkItems l₁ ps acc total with
        | .error e => .error e
        | .ok (ps₁, a₁, t₁) => checkItems l₂ ps₁ a₁ t₁ := by
  induction l₁ with
  | nil =>
    intro ps acc total
    simp [checkItems]
  | cons it rest ih =>
    intro ps acc total
    simp only [List.cons_append, checkItems]
    cases hf : findProduct ps it.productId with
    | none => rfl
    | some product =>
      dsimp only
      by_cases hs : product.stock < it.quantity
      · simp only [if_pos hs]
      · simp only [if_neg hs]
        exact ih _ _ _

theorem foldl_incrementStock_spec (its : List OrderItem) :
    ∀ (ps : List Product),
      ((its.foldl (fun a it => incrementStock a it.productId it.quantity) ps).map
          (fun p => (p.id, p.name, p.price)) =
        ps.map (fun p => (p.id, p.name, p.price))) ∧
      ∀ i (h1 : i < ps.length)
        (h2 : i < (its.foldl (fun a it => incrementStock a it.productId it.quantity)
            ps).length),
        (its.foldl (fun a it => incrementStock a it.productId it.quantity) ps)[i].stock =
          ps[i].stock + restored its ps[i].id := by
  induction its with
  | nil =>
    intro ps
    refine ⟨rfl, ?_⟩
    intro i h1 h2
    simp [restored]
  | cons it rest ih =>
    intro ps
    simp only [List.foldl_cons]
    obtain ⟨hfields, hstock⟩ := ih (incrementStock ps it.productId it.quantity)
    constructor
    · rw [hfields, incrementStock_map_fields]
    · intro i h1 h2
      have hlen : i < (incrementStock ps it.productId it.quantity).length := by
        rw [incrementStock_length]; exact h1
      have hst := hstock i hlen h2
      have hget := incrementStock_getElem ps it.productId it.quantity i h1 hlen
      rw [restored_cons]
      by_cases hc : ps[i].id = it.productId
      · have hcond : (ps[i].id == it.productId) = true := by simpa using hc
        rw [hcond] at hget
        simp only [if_true] at hget
        rw [hget] at hst
        simp only at hst
        have hcond2 : (it.productId == ps[i].id) = true := by simp [hc]
        rw [hcond2, if_pos rfl]
        omega
      · have hcond : (ps[i].id == it.productId) = false := by simpa using hc
        rw [hcond] at hget
        simp only [Bool.false_eq_true, if_false] at hget
        rw [hget] at hst
        have hcond2 : (it.productId == ps[i].id) = false := by
          simp
          omega
        rw [hcond2]
        simp only [Bool.false_eq_true, if_false]
        omega

theorem itemViews_ok_spec (its : List OrderItem) :
    ∀ (ps : List Product) (vs : List OrderItemView),
      itemViews ps its = .ok vs →
      vs.length = its.length ∧
      ∀ i (h1 : i < its.length) (h2 : i < vs.length),
        ∃ p, findProduct ps its[i].productId = some p ∧
          vs[i] = ⟨p.id, p.name, its[i].quantity, its[i].price⟩ := by
  induction its with
  | nil =>
    intro ps vs h
    simp only [itemViews, Except.ok.injEq] at h
    subst h
    exact ⟨rfl, by intro i h1 h2; simp at h1⟩
  | cons it rest ih =>
    intro ps vs h
    simp only [itemViews] at h
    cases hv : itemView ps it with
    | error e => rw [hv] at h; exact absurd h (by simp)
    | ok v =>
      rw [hv] at h
      dsimp only at h
      cases hvs : itemViews ps rest with
      | error e => rw [hvs] at h; exact absurd h (by simp)
      | ok vs0 =>
        rw [hvs] at h
        dsimp only at h
        injection h with h
        subst h
        obtain ⟨hlen, hrest⟩ := ih ps vs0 hvs
        refine ⟨by simp [hlen], ?_⟩
        intro i h1 h2
        cases i with
        | zero =>
          simp only [itemView] at hv
          cases hf : findProduct ps it.productId with
          | none => rw [hf] at hv; exact absurd hv (by simp)
          | some p =>
            rw [hf] at hv
            dsimp only at hv
            injection hv with hv
            exact ⟨p, by simpa using hf, by simpa using hv.symm⟩
        | succ j =>
          have hj1 : j < rest.length := by simpa using h1
          have hj2 : j < vs0.length := by simpa using h2
          obtain ⟨p, hp, hvj⟩ := hrest j hj1 hj2
          exact ⟨p, by simpa using hp, by simpa using hvj⟩

theorem itemViews_map_of_id_name (g : Product → Product)
    (hid : ∀ p, (g p).id = p.id) (hname : ∀ p, (g p).name = p.name)
    (its : List OrderItem) :
    ∀ (ps : List Product), itemViews (ps.map g) its = itemViews ps its := by
  induction its with
  | nil => intro ps; rfl
  | cons it rest ih =>
    intro ps
    simp only [itemViews]
    have hv : itemView (ps.map g) it = itemView ps it := by
      unfold itemView
      rw [findProduct_map_of_id g hid]
      cases hf : findProduct ps it.productId with
      | none => rfl
      | some p => simp [hid p, hname p]
    rw [hv, ih ps]

theorem createOrderWith_ok_inv (pay : Int → Nat → Bool) (s : Store) (u : Nat)
    (items : List ItemRequest) (now : Nat) (r : CreateOrderResult) (s' : Store)
    (h : createOrderWith pay s u items now = (.ok r, s')) :
    ∃ user ps' itemsData total,
      findUser s.users u = some user ∧
      checkItems items s.products [] 0 = .ok (ps', itemsData, total) ∧
      pay total s.nextOrderId = true ∧
      r = ⟨s.nextOrderId, .processing, total⟩ ∧
      s' = { s with
        products := ps',
        orders := s.orders ++ [⟨s.nextOrderId, u, .processing, total, now⟩],
        orderItems := s.orderItems ++ (List.range itemsData.length).zipWith
          (fun i d => ⟨s.nextItemId + i, s.nextOrderId, d.productId,
                       d.quantity, d.price⟩) itemsData,
        payments := s.payments ++ [⟨s.nextPaymentId, s.nextOrderId, total, "succeeded"⟩],
        nextOrderId := s.nextOrderId + 1,
        nextItemId := s.nextItemId + itemsData.length,
        nextPaymentId := s.nextPaymentId + 1 } := by
  unfold createOrderWith createOrderTx at h
  cases hu : findUser s.users u with
  | none => rw [hu] at h; exact absurd h (by simp)
  | some user =>
    rw [hu] at h
    dsimp only at h
    cases hc : checkItems items s.products [] 0 with
    | error e => rw [hc] at h; exact absurd h (by simp)
    | ok out =>
      obtain ⟨ps', itemsData, total⟩ := out
      rw [hc] at h
      dsimp only at h
      cases hpay : pay total s.nextOrderId with
      | false =>
        rw [hpay] at h
        simp only [Bool.false_eq_true, if_false] at h
        exact absurd h (by simp)
      | true =>
        rw [hpay] at h
        simp only [if_true] at h
        simp only [Prod.mk.injEq, Except.ok.injEq] at h
        obtain ⟨hr, hs⟩ := h
        exact ⟨user, ps', itemsData, total, rfl, rfl, hpay, hr.symm, hs.symm⟩

theorem createOrderWith_error_inv (pay : Int → Nat → Bool) (s : Store) (u : Nat)
    (items : List ItemRequest) (now : Nat) (e : OrderError) (s₂ : Store)
    (h : createOrderWith pay s u items now = (.error e, s₂)) :
    s₂ = s ∧ createOrderTx pay s u items now = .error e := by
  unfold createOrderWith at h
  cases htx : createOrderTx pay s u items now with
  | error e2 =>
    rw [htx] at h
    dsimp only at h
    simp only [Prod.mk.injEq, Except.error.injEq] at h
    obtain ⟨he, hs⟩ := h
    exact ⟨hs.symm, by rw [he]⟩
  | ok out =>
    obtain ⟨r, s'⟩ := out
    rw [htx] at h
    exact absurd h (by simp)

theorem cancelOrder_error_inv (s : Store) (o : Nat) (e : OrderError) (s₂ : Store)
    (h : cancelOrder s o = (.error e, s₂)) :
    s₂ = s ∧ cancelOrderTx s o = .error e := by
  unfold cancelOrder at h
  cases htx : cancelOrderTx s o with
  | error e2 =>
    rw [htx] at h
    dsimp only at h
    simp only [Prod.mk.injEq, Except.error.injEq] at h
    obtain ⟨he, hs⟩ := h
    exact ⟨hs.symm, by rw [he]⟩
  | ok out =>
    obtain ⟨r, s'⟩ := out
    rw [htx] at h
    exact absurd h (by simp)

/-- **C1.** Every successful `createOrder(userId, items)` call persists an
order with status `processing` whose recorded total equals the sum over
the supplied items of price-at-order-time times requested quantity,
decrements each ordered product's stock by exactly the ordered quantity
(leaving every other product's stock, and all ids, names, and prices,
unchanged), persists a succeeded payment record linked to the order and
one line item per supplied item carrying the quantity and the price
snapshot, and returns `{orderId, status, totalAmount}` for that order. -/
theorem create_order_success_postcondition (s : Store) (u : Nat)
    (items : List ItemRequest) (now : Nat) (r : CreateOrderResult) (s' : Store)
    (hnd : (s.products.map (fun p => p.id)).Nodup)
    (h : createOrder s u items now = (.ok r, s')) :
    CreateOk s u items r s' := by
  obtain ⟨user, ps', itemsData, total, _hu, hc, _hpay, hr, hs⟩ :=
    createOrderWith_ok_inv processPayment s u items now r s' h
  obtain ⟨hacc, htot, hfields, hstock⟩ :=
    checkItems_ok_spec items s.products [] 0 ps' itemsData total hnd hc
  simp only [List.nil_append] at hacc
  simp only [zero_add] at htot
  have hlen : ps'.length = s.products.length := by
    have := congrArg List.length hfields
    simpa using this
  have hdatalen : itemsData.length = items.length := by
    rw [hacc]; simp
  subst hr
  subst hs
  refine ⟨rfl, rfl, htot, ?_, ?_, ?_, ?_, ?_, rfl⟩
  · exact ⟨⟨s.nextOrderId, u, .processing, total, now⟩, by simp, rfl, rfl, rfl, rfl⟩
  · exact ⟨⟨s.nextPaymentId, s.nextOrderId, total, "succeeded"⟩, by simp, rfl, rfl, rfl⟩
  · refine ⟨(List.range itemsData.length).zipWith
      (fun i d => ⟨s.nextItemId + i, s.nextOrderId, d.productId,
                   d.quantity, d.price⟩) itemsData, rfl, ?_, ?_⟩
    · simp [hdatalen]
    · intro i h1 h2
      have hi : i < itemsData.length := by rw [hdatalen]; exact h1
      have hml : i < (items.map
          (fun it => (⟨it.productId, it.quantity, priceIn s.products it.productId⟩ :
            OrderItemData))).length := by
        simpa using h1
      have hd : itemsData[i] =
          ⟨items[i].productId, items[i].quantity, priceIn s.products items[i].productId⟩ := by
        have hx : itemsData[i] = (items.map
            (fun it => (⟨it.productId, it.quantity, priceIn s.products it.productId⟩ :
              OrderItemData)))[i] := by
          simp only [hacc]
        rw [hx, List.getElem_map]
      rw [List.getElem_zipWith, List.getElem_range, hd]
      exact ⟨rfl, rfl, rfl, rfl⟩
  · exact hlen
  · intro i h1 h2
    have h2' : i < ps'.length := by rw [hlen]; exact h1
    have hm1 : i < (ps'.map (fun p => (p.id, p.name, p.price))).length := by
      simpa using h2'
    have hm2 : i < (s.products.map (fun p => (p.id, p.name, p.price))).length := by
      simpa using h1
    have hf : ps'[i].id = s.products[i].id ∧ ps'[i].name = s.products[i].name ∧
        ps'[i].price = s.products[i].price := by
      have hmapeq : (ps'.map (fun p => (p.id, p.name, p.price)))[i] =
          (s.products.map (fun p => (p.id, p.name, p.price)))[i] := by
        simp only [hfields]
      simp only [List.getElem_map, Prod.mk.injEq] at hmapeq
      exact ⟨hmapeq.1, hmapeq.2.1, hmapeq.2.2⟩
    exact ⟨hf.1, hf.2.1, hf.2.2, hstock i h1 h2'⟩

/-- Witness for C1: the postcondition instantiated on the seeded demo
store with a concrete successful two-item order. -/
theorem create_order_success_witness :
    (demoStore.products.map (fun p => p.id)).Nodup ∧
    CreateOk demoStore 1 [⟨10, 2⟩, ⟨11, 1⟩] ⟨100, .processing, 10⟩ demoStore1 :=
  ⟨by decide,
   create_order_success_postcondition demoStore 1 [⟨10, 2⟩, ⟨11, 1⟩] 42
     ⟨100, .processing, 10⟩ demoStore1 (by decide) (by decide)⟩

/-- **C2.** Every failing `createOrder` call — whatever the error and
whatever the authorizer — leaves the store exactly as it was; in
particular requesting more units of a product than its current stock
leaves the store unchanged and yields the `InsufficientStock` error
naming the product, the available quantity, and the requested quantity. -/
theorem create_order_failure_rollback :
    (∀ (pay : Int → Nat → Bool) (s : Store) (u : Nat) (items : List ItemRequest)
       (now : Nat) (e : OrderError) (s₂ : Store),
       createOrderWith pay s u items now = (.error e, s₂) → s₂ = s) ∧
    (∀ (s : Store) (u now pid q : Nat) (user : User) (p : Product),
       findUser s.users u = some user →
       findProduct s.products pid = some p →
       p.stock < q →
       createOrder s u [⟨pid, q⟩] now =
         (.error (.InsufficientStock p.name p.stock q), s)) := by
  constructor
  · intro pay s u items now e s₂ h
    exact (createOrderWith_error_inv pay s u items now e s₂ h).1
  · intro s u now pid q user p hu hp hq
    have hchk : checkItems [⟨pid, q⟩] s.products [] 0 =
        .error (.InsufficientStock p.name p.stock q) := by
      simp only [checkItems]
      rw [hp]
      dsimp only
      rw [if_pos hq]
    have htx : createOrderTx processPayment s u [⟨pid, q⟩] now =
        .error (.InsufficientStock p.name p.stock q) := by
      unfold createOrderTx
      rw [hu]
      dsimp only
      rw [hchk]
    unfold createOrder createOrderWith
    rw [htx]

/-- Witness for C2: on the demo store, requesting 5 gadgets with only 1
in stock fails with `InsufficientStock` and leaves the store unchanged. -/
theorem create_order_failure_rollback_witness :
    findUser demoStore.users 1 = some ⟨1, "alice@shop.test"⟩ ∧
    findProduct demoStore.products 11 = some ⟨11, "gadget", 4, 1⟩ ∧
    (⟨11, "gadget", 4, 1⟩ : Product).stock < 5 ∧
    createOrder demoStore 1 [⟨11, 5⟩] 7 =
      (.error (.InsufficientStock "gadget" 1 5), demoStore) :=
  ⟨by decide, by decide, by decide,
   create_order_failure_rollback.2 demoStore 1 7 11 5 ⟨1, "alice@shop.test"⟩
     ⟨11, "gadget", 4, 1⟩ (by decide) (by decide) (by decide)⟩

theorem cancelOrder_ok_inv (s : Store) (o : Nat) (r : CancelResult) (s' : Store)
    (h : cancelOrder s o = (.ok r, s')) :
    ∃ ord, findOrder s.orders o = some ord ∧ ord.id = o ∧
      ((ord.status = .cancelled ∧ r = ⟨ord.id, ord.status⟩ ∧ s' = s) ∨
       (ord.status ≠ .cancelled ∧ ord.status ≠ .shipped ∧ ord.status ≠ .delivered ∧
        r = ⟨o, .cancelled⟩ ∧
        s' = { s with
          products := (s.orderItems.filter (fun it => it.orderId == o)).foldl
            (fun ps it => incrementStock ps it.productId it.quantity) s.products,
          orders := s.orders.map
            (fun x => if x.id == o then { x with status := .cancelled } else x) })) := by
  unfold cancelOrder cancelOrderTx at h
  cases ho : findOrder s.orders o with
  | none => rw [ho] at h; exact absurd h (by simp)
  | some ord =>
    rw [ho] at h
    dsimp only at h
    have hid : ord.id = o := by
      have := List.find?_some ho
      simpa using this
    by_cases hc : ord.status = OrderStatus.cancelled
    · rw [if_pos (by simp [hc])] at h
      dsimp only at h
      simp only [Prod.mk.injEq, Except.ok.injEq] at h
      obtain ⟨hr, hs⟩ := h
      exact ⟨ord, rfl, hid, Or.inl ⟨hc, hr.symm, hs.symm⟩⟩
    · rw [if_neg (by simp [hc])] at h
      by_cases hsd : ord.status = OrderStatus.shipped ∨ ord.status = OrderStatus.delivered
      · rw [if_pos (by rcases hsd with hs | hs <;> simp [hs])] at h
        exact absurd h (by simp)
      · push_neg at hsd
        rw [if_neg (by simp [hsd.1, hsd.2])] at h
        dsimp only at h
        simp only [Prod.mk.injEq, Except.ok.injEq] at h
        obtain ⟨hr, hs⟩ := h
        exact ⟨ord, rfl, hid, Or.inr ⟨hc, hsd.1, hsd.2, hr.symm, hs.symm⟩⟩

theorem cancelOrder_already_cancelled (s : Store) (o : Nat) (ord : Order)
    (ho : findOrder s.orders o = some ord) (hst : ord.status = .cancelled) :
    cancelOrder s o = (.ok ⟨ord.id, .cancelled⟩, s) := by
  unfold cancelOrder cancelOrderTx
  rw [ho]
  dsimp only
  rw [if_pos (by simp [hst])]
  dsimp only
  rw [hst]

/-- **C3.** Cancellation is idempotent: an order already `cancelled`
cancels to its current state `{orderId, status: cancelled}` with the store
untouched and no error, and for any order on which `cancelOrder` succeeds,
running `cancelOrder` again returns the same result and the same store:
cancel(cancel(o)) = cancel(o). -/
theorem cancel_order_idempotent :
    (∀ (s : Store) (o : Nat) (ord : Order),
       findOrder s.orders o = some ord → ord.status = .cancelled →
       cancelOrder s o = (.ok ⟨ord.id, .cancelled⟩, s)) ∧
    (∀ (s : Store) (o : Nat) (r : CancelResult) (s' : Store),
       cancelOrder s o = (.ok r, s') → cancelOrder s' o = (.ok r, s')) := by
  constructor
  · exact cancelOrder_already_cancelled
  · intro s o r s' h
    obtain ⟨ord, ho, hid, hcase⟩ := cancelOrder_ok_inv s o r s' h
    rcases hcase with ⟨hst, hr, hs⟩ | ⟨_, _, _, hr, hs⟩
    · subst hs
      rw [hr, hst]
      exact cancelOrder_already_cancelled s' o ord ho hst
    · have hg : ∀ x : Order,
          ((if x.id == o then { x with status := OrderStatus.cancelled } else x) : Order).id
            = x.id := by
        intro x
        split <;> rfl
      have hfind : findOrder s'.orders o =
          some { ord with status := OrderStatus.cancelled } := by
        rw [hs]
        dsimp only
        rw [findOrder_map_of_id _ hg s.orders o, ho]
        simp [hid]
      have := cancelOrder_already_cancelled s' o
        { ord with status := OrderStatus.cancelled } hfind rfl
      rw [this, hr]
      dsimp only
      rw [hid]

/-- Witness for C3: cancelling the cancelled demo order returns the same
result and store as the first cancellation. -/
theorem cancel_order_idempotent_witness :
    cancelOrder demoStore1 100 = (.ok ⟨100, .cancelled⟩, demoStoreC) ∧
    cancelOrder demoStoreC 100 = (.ok ⟨100, .cancelled⟩, demoStoreC) :=
  ⟨by decide,
   cancel_order_idempotent.2 demoStore1 100 ⟨100, .cancelled⟩ demoStoreC (by decide)⟩

theorem map_fields_pointwise (ps' ps : List Product)
    (h : ps'.map (fun p => (p.id, p.name, p.price)) =
      ps.map (fun p => (p.id, p.name, p.price))) :
    ps'.length = ps.length ∧
    ∀ i (h1 : i < ps.length) (h2 : i < ps'.length),
      ps'[i].id = ps[i].id ∧ ps'[i].name = ps[i].name ∧ ps'[i].price = ps[i].price := by
  have hlen : ps'.length = ps.length := by
    have := congrArg List.length h
    simpa using this
  refine ⟨hlen, ?_⟩
  intro i h1 h2
  have hm1 : i < (ps'.map (fun p => (p.id, p.name, p.price))).length := by
    simpa using h2
  have hm2 : i < (ps.map (fun p => (p.id, p.name, p.price))).length := by
    simpa using h1
  have hmapeq : (ps'.map (fun p => (p.id, p.name, p.price)))[i] =
      (ps.map (fun p => (p.id, p.name, p.price)))[i] := by
    simp only [h]
  simp only [List.getElem_map, Prod.mk.injEq] at hmapeq
  exact ⟨hmapeq.1, hmapeq.2.1, hmapeq.2.2⟩

/-- **C4.** Cancelling an existing `pending` or `processing` order marks it
`cancelled` and gives each referenced product back exactly the quantity
recorded in the order's line items, exactly once, changing nothing else:
users, payment records, order items, id sequences, and every product's
id, name, and price are untouched, and products the order does not
reference keep their stock. -/
theorem cancel_order_restores_stock (s : Store) (o : Nat) (ord : Order)
    (ho : findOrder s.orders o = some ord)
    (hst : ord.status = .pending ∨ ord.status = .processing) :
    ∃ s', cancelOrder s o = (.ok ⟨o, .cancelled⟩, s') ∧ CancelOk s o s' := by
  have hnc : ord.status ≠ OrderStatus.cancelled := by
    rcases hst with h | h <;> rw [h] <;> intro hx <;> exact absurd hx (by simp)
  have hns : ¬(ord.status = OrderStatus.shipped ∨ ord.status = OrderStatus.delivered) := by
    rcases hst with h | h <;> rw [h] <;> rintro (hx | hx) <;> exact absurd hx (by simp)
  refine ⟨{ s with
      products := (s.orderItems.filter (fun it => it.orderId == o)).foldl
        (fun ps it => incrementStock ps it.productId it.quantity) s.products,
      orders := s.orders.map
        (fun x => if x.id == o then { x with status := .cancelled } else x) }, ?_, ?_⟩
  · unfold cancelOrder cancelOrderTx
    rw [ho]
    dsimp only
    rw [if_neg (by simp [hnc])]
    push_neg at hns
    rw [if_neg (by simp [hns.1, hns.2])]
  · obtain ⟨hfields, hstock⟩ := foldl_incrementStock_spec
      (s.orderItems.filter (fun it => it.orderId == o)) s.products
    obtain ⟨hlen, hpw⟩ := map_fields_pointwise _ _ hfields
    refine ⟨rfl, rfl, rfl, rfl, rfl, rfl, rfl, hlen, ?_⟩
    intro i h1 h2
    obtain ⟨hi, hn, hp⟩ := hpw i h1 h2
    exact ⟨hi, hn, hp, hstock i h1 h2⟩

/-- Witness for C4: cancelling the processing demo order restores both
products' stock and flips only the order status. -/
theorem cancel_order_restores_stock_witness :
    findOrder demoStore1.orders 100 = some ⟨100, 1, .processing, 10, 42⟩ ∧
    (∃ s', cancelOrder demoStore1 100 = (.ok ⟨100, .cancelled⟩, s') ∧
       CancelOk demoStore1 100 s') :=
  ⟨by decide,
   cancel_order_restores_stock demoStore1 100 ⟨100, 1, .processing, 10, 42⟩
     (by decide) (Or.inr rfl)⟩

/-- **C5.** During order creation the payment authorizer is consulted with
the computed total and the new order identifier; when it reports failure
the whole operation fails with `PaymentFailed` and the returned store is
exactly the pre-attempt store — no new order, no new payment, and every
stock decrement of the earlier steps rolled back. -/
theorem payment_failure_aborts (pay : Int → Nat → Bool) (s : Store) (u : Nat)
    (items : List ItemRequest) (now : Nat) (user : User) (ps' : List Product)
    (acc : List OrderItemData) (total : Int)
    (hu : findUser s.users u = some user)
    (hc : checkItems items s.products [] 0 = .ok (ps', acc, total))
    (hpay : pay total s.nextOrderId = false) :
    createOrderWith pay s u items now = (.error .PaymentFailed, s) := by
  have htx : createOrderTx pay s u items now = .error .PaymentFailed := by
    unfold createOrderTx
    rw [hu]
    dsimp only
    rw [hc]
    dsimp only
    rw [hpay]
    simp only [Bool.false_eq_true, if_false]
  unfold createOrderWith
  rw [htx]

/-- Witness for C5: a declining authorizer makes the demo one-item order
fail with `PaymentFailed` and hand back the untouched demo store. -/
theorem payment_failure_aborts_witness :
    findUser demoStore.users 1 = some ⟨1, "alice@shop.test"⟩ ∧
    checkItems [⟨10, 1⟩] demoStore.products [] 0 =
      .ok (decrementStock demoStore.products 10 1, [⟨10, 1, 3⟩], 3) ∧
    createOrderWith (fun _ _ => false) demoStore 1 [⟨10, 1⟩] 5 =
      (.error .PaymentFailed, demoStore) :=
  ⟨by decide, by decide,
   payment_failure_aborts (fun _ _ => false) demoStore 1 [⟨10, 1⟩] 5
     ⟨1, "alice@shop.test"⟩ (decrementStock demoStore.products 10 1)
     [⟨10, 1, 3⟩] 3 (by decide) (by decide) rfl⟩

theorem createOrderTx_error_inv (pay : Int → Nat → Bool) (s : Store) (u : Nat)
    (items : List ItemRequest) (now : Nat) (e : OrderError)
    (h : createOrderTx pay s u items now = .error e) :
    (findUser s.users u = none ∧ e = .UserNotFound) ∨
    (∃ user, findUser s.users u = some user ∧
       checkItems items s.products [] 0 = .error e) ∨
    (∃ user ps' acc total, findUser s.users u = some user ∧
       checkItems items s.products [] 0 = .ok (ps', acc, total) ∧
       pay total s.nextOrderId = false ∧ e = .PaymentFailed) := by
  unfold createOrderTx at h
  cases hu : findUser s.users u with
  | none =>
    rw [hu] at h
    dsimp only at h
    injection h with he
    exact Or.inl ⟨rfl, he.symm⟩
  | some user =>
    rw [hu] at h
    dsimp only at h
    cases hc : checkItems items s.products [] 0 with
    | error e2 =>
      rw [hc] at h
      dsimp only at h
      injection h with he
      rw [he]
      exact Or.inr (Or.inl ⟨user, rfl, rfl⟩)
    | ok out =>
      obtain ⟨ps', acc, total⟩ := out
      rw [hc] at h
      dsimp only at h
      cases hpay : pay total s.nextOrderId with
      | false =>
        rw [hpay] at h
        simp only [Bool.false_eq_true, if_false] at h
        injection h with he
        exact Or.inr (Or.inr ⟨user, ps', acc, total, rfl, rfl, hpay, he.symm⟩)
      | true =>
        rw [hpay] at h
        simp only [if_true] at h
        exact absurd h (by simp)

theorem createOrderWith_fst_error (pay : Int → Nat → Bool) (s : Store) (u : Nat)
    (items : List ItemRequest) (now : Nat) (e : OrderError) :
    (createOrderWith pay s u items now).1 = .error e ↔
      createOrderTx pay s u items now = .error e := by
  unfold createOrderWith
  cases htx : createOrderTx pay s u items now with
  | error e2 => simp
  | ok out =>
    obtain ⟨r, s'⟩ := out
    simp

/-- **C6.** The creation error taxonomy, with checks run in the caller's
item order: `UserNotFound` is raised exactly when the user id does not
resolve; a `ProductNotFound` error always names an id that genuinely does
not resolve; when the user exists and every earlier item passes its
checks, a missing product yields `ProductNotFound` with that id and an
over-stock request yields `InsufficientStock` naming the product, the
available stock, and the requested quantity — while a request for exactly
the available stock passes the check. -/
theorem create_order_error_taxonomy :
    (∀ (s : Store) (u : Nat) (items : List ItemRequest) (now : Nat),
       (createOrder s u items now).1 = .error .UserNotFound ↔
         findUser s.users u = none) ∧
    (∀ (s : Store) (u : Nat) (items : List ItemRequest) (now pid : Nat),
       (createOrder s u items now).1 = .error (.ProductNotFound pid) →
       findProduct s.products pid = none) ∧
    (∀ (s : Store) (u now : Nat) (pre rest : List ItemRequest) (pid q : Nat)
       (user : User) (ps1 : List Product) (acc : List OrderItemData) (t : Int),
       findUser s.users u = some user →
       checkItems pre s.products [] 0 = .ok (ps1, acc, t) →
       findProduct ps1 pid = none →
       createOrder s u (pre ++ ⟨pid, q⟩ :: rest) now =
         (.error (.ProductNotFound pid), s)) ∧
    (∀ (s : Store) (u now : Nat) (pre rest : List ItemRequest) (pid q : Nat)
       (user : User) (ps1 : List Product) (acc : List OrderItemData) (t : Int)
       (p : Product),
       findUser s.users u = some user →
       checkItems pre s.products [] 0 = .ok (ps1, acc, t) →
       findProduct ps1 pid = some p →
       p.stock < q →
       createOrder s u (pre ++ ⟨pid, q⟩ :: rest) now =
         (.error (.InsufficientStock p.name p.stock q), s)) ∧
    (∀ (ps : List Product) (pid q : Nat) (p : Product) (acc : List OrderItemData)
       (t : Int),
       findProduct ps pid = some p → q ≤ p.stock →
       checkItems [⟨pid, q⟩] ps acc t =
         .ok (decrementStock ps pid q, acc ++ [⟨pid, q, p.price⟩],
              t + p.price * q)) := by
  refine ⟨?_, ?_, ?_, ?_, ?_⟩
  · intro s u items now
    constructor
    · intro h
      unfold createOrder at h
      rw [createOrderWith_fst_error] at h
      rcases createOrderTx_error_inv _ _ _ _ _ _ h with
        ⟨hu, _⟩ | ⟨user, _, hchk⟩ | ⟨user, ps', acc, total, _, _, _, he⟩
      · exact hu
      · rcases checkItems_error_spec _ _ _ _ _ hchk with ⟨pid, he, _⟩ | ⟨nm, av, rq, he, _⟩
        · exact absurd he (by simp)
        · exact absurd he (by simp)
      · exact absurd he (by simp)
    · intro hu
      have htx : createOrderTx processPayment s u items now = .error .UserNotFound := by
        unfold createOrderTx
        rw [hu]
      unfold createOrder
      rw [createOrderWith_fst_error]
      exact htx
  · intro s u items now pid h
    unfold createOrder at h
    rw [createOrderWith_fst_error] at h
    rcases createOrderTx_error_inv _ _ _ _ _ _ h with
      ⟨_, he⟩ | ⟨user, _, hchk⟩ | ⟨user, ps', acc, total, _, _, _, he⟩
    · exact absurd he (by simp)
    · rcases checkItems_error_spec _ _ _ _ _ hchk with
        ⟨pid2, he, hnone⟩ | ⟨nm, av, rq, he, _⟩
      · injection he with he2
        rw [he2]
        exact hnone
      · exact absurd he (by simp)
    · exact absurd he (by simp)
  · intro s u now pre rest pid q user ps1 acc t hu hc hnone
    have hchk : checkItems (pre ++ ⟨pid, q⟩ :: rest) s.products [] 0 =
        .error (.ProductNotFound pid) := by
      rw [checkItems_append]
      rw [hc]
      dsimp only
      simp only [checkItems]
      rw [hnone]
    have htx : createOrderTx processPayment s u (pre ++ ⟨pid, q⟩ :: rest) now =
        .error (.ProductNotFound pid) := by
      unfold createOrderTx
      rw [hu]
      dsimp only
      rw [hchk]
    unfold createOrder createOrderWith
    rw [htx]
  · intro s u now pre rest pid q user ps1 acc t p hu hc hp hq
    have hchk : checkItems (pre ++ ⟨pid, q⟩ :: rest) s.products [] 0 =
        .error (.InsufficientStock p.name p.stock q) := by
      rw [checkItems_append]
      rw [hc]
      dsimp only
      simp only [checkItems]
      rw [hp]
      dsimp only
      rw [if_pos hq]
    have htx : createOrderTx processPayment s u (pre ++ ⟨pid, q⟩ :: rest) now =
        .error (.InsufficientStock p.name p.stock q) := by
      unfold createOrderTx
      rw [hu]
      dsimp only
      rw [hchk]
    unfold createOrder createOrderWith
    rw [htx]
  · intro ps pid q p acc t hp hq
    simp only [checkItems]
    rw [hp]
    dsimp only
    rw [if_neg (Nat.not_lt.mpr hq)]

/-- Witness for C6: concrete unknown-user, unknown-product,
insufficient-stock, and exact-stock scenarios on the demo store. -/
theorem create_order_error_taxonomy_witness :
    (createOrder demoStore 2 [⟨10, 1⟩] 0).1 = .error .UserNotFound ∧
    createOrder demoStore 1 ([] ++ ⟨99, 1⟩ :: []) 0 =
      (.error (.ProductNotFound 99), demoStore) ∧
    createOrder demoStore 1 ([] ++ ⟨10, 4⟩ :: []) 0 =
      (.error (.InsufficientStock "widget" 3 4), demoStore) ∧
    checkItems [⟨11, 1⟩] demoStore.products [] 0 =
      .ok (decrementStock demoStore.products 11 1, [] ++ [⟨11, 1, 4⟩], 0 + 4 * 1) :=
  ⟨(create_order_error_taxonomy.1 demoStore 2 [⟨10, 1⟩] 0).mpr (by decide),
   create_order_error_taxonomy.2.2.1 demoStore 1 0 [] [] 99 1 ⟨1, "alice@shop.test"⟩
     demoStore.products [] 0 (by decide) (by decide) (by decide),
   create_order_error_taxonomy.2.2.2.1 demoStore 1 0 [] [] 10 4 ⟨1, "alice@shop.test"⟩
     demoStore.products [] 0 ⟨10, "widget", 3, 3⟩ (by decide) (by decide) (by decide)
     (by decide),
   create_order_error_taxonomy.2.2.2.2 demoStore.products 11 1 ⟨11, "gadget", 4, 1⟩
     [] 0 (by decide) (by decide)⟩

theorem cancelOrderTx_error_inv (s : Store) (o : Nat) (e : OrderError)
    (h : cancelOrderTx s o = .error e) :
    (findOrder s.orders o = none ∧ e = .OrderNotFound) ∨
    (∃ ord, findOrder s.orders o = some ord ∧
       (ord.status = .shipped ∨ ord.status = .delivered) ∧
       e = .NotCancelable ord.status) := by
  unfold cancelOrderTx at h
  cases ho : findOrder s.orders o with
  | none =>
    rw [ho] at h
    dsimp only at h
    injection h with he
    exact Or.inl ⟨rfl, he.symm⟩
  | some ord =>
    rw [ho] at h
    dsimp only at h
    by_cases hc : ord.status = OrderStatus.cancelled
    · rw [if_pos (by simp [hc])] at h
      exact absurd h (by simp)
    · rw [if_neg (by simp [hc])] at h
      by_cases hsd : ord.status = OrderStatus.shipped ∨ ord.status = OrderStatus.delivered
      · rw [if_pos (by rcases hsd with hx | hx <;> simp [hx])] at h
        injection h with he
        exact Or.inr ⟨ord, rfl, hsd, he.symm⟩
      · push_neg at hsd
        rw [if_neg (by simp [hsd.1, hsd.2])] at h
        exact absurd h (by simp)

/-- **C7.** The cancellation error taxonomy: `OrderNotFound` is returned
exactly when the order id does not resolve; `NotCancelable` (naming the
order's current status) is returned exactly when the order's status is
`shipped` or `delivered`; and every cancellation failure hands back the
store exactly as it was. -/
theorem cancel_order_error_taxonomy :
    (∀ (s : Store) (o : Nat), findOrder s.orders o = none →
       cancelOrder s o = (.error .OrderNotFound, s)) ∧
    (∀ (s : Store) (o : Nat) (ord : Order), findOrder s.orders o = some ord →
       ord.status = .shipped ∨ ord.status = .delivered →
       cancelOrder s o = (.error (.NotCancelable ord.status), s)) ∧
    (∀ (s : Store) (o : Nat) (e : OrderError) (s₂ : Store),
       cancelOrder s o = (.error e, s₂) → s₂ = s) ∧
    (∀ (s : Store) (o : Nat) (st : OrderStatus) (s₂ : Store),
       cancelOrder s o = (.error (.NotCancelable st), s₂) →
       ∃ ord, findOrder s.orders o = some ord ∧ ord.status = st ∧
         (st = .shipped ∨ st = .delivered)) ∧
    (∀ (s : Store) (o : Nat) (s₂ : Store),
       cancelOrder s o = (.error .OrderNotFound, s₂) →
       findOrder s.orders o = none) := by
  refine ⟨?_, ?_, ?_, ?_, ?_⟩
  · intro s o ho
    have htx : cancelOrderTx s o = .error .OrderNotFound := by
      unfold cancelOrderTx
      rw [ho]
    unfold cancelOrder
    rw [htx]
  · intro s o ord ho hsd
    have hnc : ord.status ≠ OrderStatus.cancelled := by
      rcases hsd with hx | hx <;> rw [hx] <;> intro hy <;> exact absurd hy (by simp)
    have htx : cancelOrderTx s o = .error (.NotCancelable ord.status) := by
      unfold cancelOrderTx
      rw [ho]
      dsimp only
      rw [if_neg (by simp [hnc])]
      rw [if_pos (by rcases hsd with hx | hx <;> simp [hx])]
    unfold cancelOrder
    rw [htx]
  · intro s o e s₂ h
    exact (cancelOrder_error_inv s o e s₂ h).1
  · intro s o st s₂ h
    obtain ⟨_, htx⟩ := cancelOrder_error_inv s o _ s₂ h
    rcases cancelOrderTx_error_inv s o _ htx with ⟨_, he⟩ | ⟨ord, ho, hsd, he⟩
    · exact absurd he (by simp)
    · injection he with he2
      exact ⟨ord, ho, he2.symm, by rw [he2]; exact hsd⟩
  · intro s o s₂ h
    obtain ⟨_, htx⟩ := cancelOrder_error_inv s o _ s₂ h
    rcases cancelOrderTx_error_inv s o _ htx with ⟨ho, _⟩ | ⟨ord, _, _, he⟩
    · exact ho
    · exact absurd he (by simp)

/-- Witness for C7: cancelling a shipped order fails with `NotCancelable
shipped` leaving the store unchanged, and cancelling an unknown id fails
with `OrderNotFound`. -/
theorem cancel_order_error_taxonomy_witness :
    findOrder shippedStore.orders 7 = some ⟨7, 1, .shipped, 9, 5⟩ ∧
    cancelOrder shippedStore 7 = (.error (.NotCancelable .shipped), shippedStore) ∧
    findOrder demoStore.orders 50 = none ∧
    cancelOrder demoStore 50 = (.error .OrderNotFound, demoStore) :=
  ⟨by decide,
   cancel_order_error_taxonomy.2.1 shippedStore 7 ⟨7, 1, .shipped, 9, 5⟩
     (by decide) (Or.inl rfl),
   by decide,
   cancel_order_error_taxonomy.1 demoStore 50 (by decide)⟩

theorem itemViews_error_spec (its : List OrderItem) :
    ∀ (ps : List Product) (e : OrderError),
      itemViews ps its = .error e → e = .InternalFailure := by
  induction its with
  | nil =>
    intro ps e h
    exact absurd h (by simp [itemViews])
  | cons it rest ih =>
    intro ps e h
    simp only [itemViews] at h
    cases hv : itemView ps it with
    | error e2 =>
      rw [hv] at h
      dsimp only at h
      injection h with he
      subst he
      unfold itemView at hv
      cases hf : findProduct ps it.productId with
      | none =>
        rw [hf] at hv
        injection hv with hv2
        exact hv2.symm
      | some p =>
        rw [hf] at hv
        exact absurd hv (by simp)
    | ok v =>
      rw [hv] at h
      dsimp only at h
      cases hvs : itemViews ps rest with
      | error e2 =>
        rw [hvs] at h
        dsimp only at h
        injection h with he
        subst he
        exact ih ps e2 hvs
      | ok vs =>
        rw [hvs] at h
        exact absurd h (by simp)

theorem getOrderDetails_setPrice (s : Store) (pid : Nat) (np : Int) (o : Nat) :
    getOrderDetails (setPrice s pid np) o = getOrderDetails s o := by
  have hid : ∀ p : Product,
      ((if p.id == pid then { p with price := np } else p) : Product).id = p.id := by
    intro p
    split <;> rfl
  have hname : ∀ p : Product,
      ((if p.id == pid then { p with price := np } else p) : Product).name = p.name := by
    intro p
    split <;> rfl
  unfold getOrderDetails setPrice
  dsimp only
  rw [itemViews_map_of_id_name _ hid hname]

/-- **C8.** `getOrderDetails` fails with `OrderNotFound` exactly when the
order id does not resolve; otherwise it returns the order's status, total,
creation time, the owning user's id and email, and per line item the
product name, the quantity, and the price snapshotted in the order item —
so changing a product's price afterwards leaves the fetched view, and in
particular its item prices, unchanged.  The operation is read-only by
construction (it returns no store). -/
theorem get_order_details_spec :
    (∀ (s : Store) (o : Nat),
       getOrderDetails s o = .error .OrderNotFound ↔ findOrder s.orders o = none) ∧
    (∀ (s : Store) (o : Nat) (ord : Order) (user : User) (vs : List OrderItemView),
       findOrder s.orders o = some ord →
       findUser s.users ord.userId = some user →
       itemViews s.products (s.orderItems.filter (fun it => it.orderId == o)) = .ok vs →
       getOrderDetails s o = .ok ⟨ord.id, ord.status, ord.totalAmount, ord.createdAt,
         ⟨user.id, user.email⟩, vs⟩ ∧
       vs.length = (s.orderItems.filter (fun it => it.orderId == o)).length ∧
       (∀ i (h1 : i < (s.orderItems.filter (fun it => it.orderId == o)).length)
          (h2 : i < vs.length),
          vs[i].quantity = (s.orderItems.filter (fun it => it.orderId == o))[i].quantity ∧
          vs[i].price = (s.orderItems.filter (fun it => it.orderId == o))[i].price ∧
          ∃ p, findProduct s.products
              (s.orderItems.filter (fun it => it.orderId == o))[i].productId = some p ∧
            vs[i].productName = p.name ∧ vs[i].productId = p.id)) ∧
    (∀ (s : Store) (pid : Nat) (np : Int) (o : Nat),
       getOrderDetails (setPrice s pid np) o = getOrderDetails s o) := by
  refine ⟨?_, ?_, getOrderDetails_setPrice⟩
  · intro s o
    constructor
    · intro h
      unfold getOrderDetails at h
      cases ho : findOrder s.orders o with
      | none => rfl
      | some ord =>
        rw [ho] at h
        dsimp only at h
        cases hu : findUser s.users ord.userId with
        | none =>
          rw [hu] at h
          dsimp only at h
          exact absurd h (by simp)
        | some user =>
          rw [hu] at h
          dsimp only at h
          cases hv : itemViews s.products
              (s.orderItems.filter (fun it => it.orderId == o)) with
          | error e =>
            rw [hv] at h
            dsimp only at h
            injection h with he
            rcases itemViews_error_spec _ _ _ hv with he2
            rw [he2] at he
            exact absurd he (by simp)
          | ok vs =>
            rw [hv] at h
            dsimp only at h
            exact absurd h (by simp)
    · intro ho
      unfold getOrderDetails
      rw [ho]
  · intro s o ord user vs ho hu hv
    have hview : getOrderDetails s o = .ok ⟨ord.id, ord.status, ord.totalAmount,
        ord.createdAt, ⟨user.id, user.email⟩, vs⟩ := by
      unfold getOrderDetails
      rw [ho]
      dsimp only
      rw [hu]
      dsimp only
      rw [hv]
    obtain ⟨hlen, hpw⟩ := itemViews_ok_spec _ _ _ hv
    refine ⟨hview, hlen, ?_⟩
    intro i h1 h2
    obtain ⟨p, hp, hvi⟩ := hpw i h1 h2
    rw [hvi]
    exact ⟨rfl, rfl, p, hp, rfl, rfl⟩

/-- Witness for C8: fetching the demo order returns its stored view, and
repricing the widget afterwards leaves the fetched view unchanged. -/
theorem get_order_details_spec_witness :
    findOrder demoStore1.orders 100 = some ⟨100, 1, .processing, 10, 42⟩ ∧
    getOrderDetails demoStore1 100 = .ok ⟨100, .processing, 10, 42,
      ⟨1, "alice@shop.test"⟩,
      [⟨10, "widget", 2, 3⟩, ⟨11, "gadget", 1, 4⟩]⟩ ∧
    getOrderDetails (setPrice demoStore1 10 999) 100 = getOrderDetails demoStore1 100 :=
  ⟨by decide,
   (get_order_details_spec.2.1 demoStore1 100 ⟨100, 1, .processing, 10, 42⟩
     ⟨1, "alice@shop.test"⟩ [⟨10, "widget", 2, 3⟩, ⟨11, "gadget", 1, 4⟩]
     (by decide) (by decide) (by decide)).1,
   get_order_details_spec.2.2 demoStore1 10 999 100⟩

/-- **C10.** A create-order request whose body lacks a `userId`, lacks an
`items` list, carries an empty items list, or contains an item with a
missing or falsy `productId`, or a missing, zero, or negative `quantity`,
is answered 400 by the controller without invoking the Order Lifecycle
Engine, leaving the store untouched. -/
theorem create_order_request_validation (s : Store) (b : RawBody) (now : Nat)
    (hbad : b.userId = none ∨ b.items = none ∨ b.items = some [] ∨
      ∃ it ∈ b.items.getD [], it.productId = none ∨ it.productId = some 0 ∨
        it.quantity = none ∨ it.quantity = some 0 ∨
        ∃ q, it.quantity = some q ∧ q < 0) :
    createOrderController s b now = (400, s, false) := by
  have hvb : validBody b = false := by
    rcases hbad with h | h | h | ⟨it, hmem, hbaditem⟩
    · simp [validBody, truthyNat, h]
    · simp [validBody, h]
    · simp [validBody, h]
    · have hvi : validItem it = false := by
        rcases hbaditem with h | h | h | h | ⟨q, hq, hneg⟩
        · simp [validItem, truthyNat, h]
        · simp [validItem, truthyNat, h]
        · simp [validItem, truthyInt, h]
        · simp [validItem, truthyInt, h]
        · have hq2 : ¬(0 < q) := by omega
          simp [validItem, hq, hq2]
      have hall : (b.items.getD []).all validItem = false := by
        rw [List.all_eq_false]
        exact ⟨it, hmem, by simp [hvi]⟩
      simp [validBody, hall]
  unfold createOrderController
  rw [hvb]
  simp

/-- Witness for C10: a body with no `userId` and an item with zero
quantity are both rejected with 400, the store untouched, the engine never
invoked. -/
theorem create_order_request_validation_witness :
    createOrderController demoStore ⟨none, some [⟨some 10, some 1⟩]⟩ 0 =
      (400, demoStore, false) ∧
    createOrderController demoStore ⟨some 1, some [⟨some 10, some 0⟩]⟩ 0 =
      (400, demoStore, false) :=
  ⟨create_order_request_validation demoStore ⟨none, some [⟨some 10, some 1⟩]⟩ 0
     (Or.inl rfl),
   create_order_request_validation demoStore ⟨some 1, some [⟨some 10, some 0⟩]⟩ 0
     (Or.inr (Or.inr (Or.inr ⟨⟨some 10, some 0⟩, by decide,
       Or.inr (Or.inr (Or.inr (Or.inl rfl)))⟩)))⟩

end OrderApi
